import Mathlib

/-!
Verification of the realtime session coordinator in hooks/useGeminiLive.ts.

The development shallowly embeds the coordinator of the repository: the
transcript accumulator, the output scheduler, the interruption handler, the
tool-call bridge, the video frame backpressure gate, the resource teardown,
the connect precondition and the post-session report request. Times and
durations are rationals; opaque byte payloads are abstracted by their decoded
duration; browser handles (audio nodes, timers, contexts) are abstracted by
numeric identifiers. The file models the latest revision of the hook, and,
where a claim cites it, the earlier revision kept in the same source file.
-/

namespace Flow

/-! ### Transcript accumulator (onmessage, transcription branches) -/

/-- Speaker role of a transcript entry. -/
inductive Role where
  | user
  | model
  deriving DecidableEq, Repr

/-- One entry of the accumulated transcript: historyRef holds a list of
role/text records. -/
structure TranscriptEntry where
  role : Role
  text : String
  deriving DecidableEq, Repr

/-- JS truthiness of a possibly missing string: undefined and the empty
string are falsy. -/
def truthy : Option String → Bool
  | none => false
  | some t => !(t == "")

/-- Core merge step shared by both transcription branches: if the last
entry of the history has the same role, the delta text is appended to it
in place; otherwise a new entry is pushed. -/
def appendRoleText (h : List TranscriptEntry) (r : Role) (t : String) :
    List TranscriptEntry :=
  match h.getLast? with
  | some last =>
      if last.role = r then h.dropLast ++ [⟨r, last.text ++ t⟩]
      else h ++ [⟨r, t⟩]
  | none => h ++ [⟨r, t⟩]

/-- inputTranscription branch of the latest onmessage: the delta is merged
under role user only when the text field is truthy (present and non-empty). -/
def handleInputTranscription (h : List TranscriptEntry) (text : Option String) :
    List TranscriptEntry :=
  if truthy text then appendRoleText h .user (text.getD "") else h

/-- outputTranscription branch of the latest onmessage (history part): a
missing or empty text is coerced to the empty string and the delta is merged
under role model unconditionally. -/
def handleOutputTranscription (h : List TranscriptEntry) (text : Option String) :
    List TranscriptEntry :=
  appendRoleText h .model (text.getD "")

/-- Dispatch one transcript delta by role: user deltas arrive as
inputTranscription events, model deltas as outputTranscription events. -/
def applyDelta (h : List TranscriptEntry) : Role × Option String → List TranscriptEntry
  | (.user, t) => handleInputTranscription h t
  | (.model, t) => handleOutputTranscription h t

/-- Process a sequence of transcript deltas in arrival order. -/
def runDeltas (h : List TranscriptEntry) (ds : List (Role × Option String)) :
    List TranscriptEntry :=
  ds.foldl applyDelta h

/-! ### Output scheduler (onmessage, audio payload branch) -/

/-- One inbound audio payload, abstracted by the duration of its decoded
buffer and the output-clock reading (ctx.currentTime) at handling time. -/
structure AudioPayload where
  now : ℚ
  duration : ℚ
  deriving DecidableEq, Repr

/-- One scheduled playback unit: a buffer source started at startTime whose
buffer lasts duration seconds. -/
structure PlaybackUnit where
  startTime : ℚ
  duration : ℚ
  deriving DecidableEq, Repr

/-- End of the time range occupied by a playback unit. -/
def PlaybackUnit.endTime (u : PlaybackUnit) : ℚ := u.startTime + u.duration

/-- Audio payload branch of onmessage: startTime = max(nextStartTimeRef,
ctx.currentTime); the source is started at startTime and nextStartTimeRef
is advanced to startTime + audioBuffer.duration. Returns the advanced
clock and the scheduled unit. -/
def scheduleAudio (nextStartTime : ℚ) (p : AudioPayload) : ℚ × PlaybackUnit :=
  let startTime := max nextStartTime p.now
  (startTime + p.duration, ⟨startTime, p.duration⟩)

/-- Handle a sequence of inbound audio payloads with no intervening
interruption, threading the virtual clock; returns the final clock and the
scheduled units in order. -/
def runScheduler (nextStartTime : ℚ) : List AudioPayload → ℚ × List PlaybackUnit
  | [] => (nextStartTime, [])
  | p :: ps =>
      let r := scheduleAudio nextStartTime p
      let rest := runScheduler r.1 ps
      (rest.1, r.2 :: rest.2)

/-- Two playback units overlap when some instant lies inside both of their
half-open time ranges. -/
def overlaps (u v : PlaybackUnit) : Prop :=
  ∃ t : ℚ, (u.startTime ≤ t ∧ t < u.endTime) ∧ (v.startTime ≤ t ∧ t < v.endTime)

/-! ### Interruption handler (onmessage, interrupted branch) -/

/-- Playback-side state: the set of live buffer sources (sourcesRef,
as a list of node identifiers), a log of every stop() call issued, and
the virtual clock nextStartTimeRef. -/
structure PlayerState where
  activeSources : List Nat
  stoppedLog : List Nat
  nextStartTime : ℚ
  deriving DecidableEq, Repr

/-- interrupted branch of onmessage: stop() every source in sourcesRef,
clear the set, and reset nextStartTimeRef to 0. -/
def handleInterrupted (s : PlayerState) : PlayerState :=
  { activeSources := [],
    stoppedLog := s.stoppedLog ++ s.activeSources,
    nextStartTime := 0 }

/-! ### Tool-call bridge (onmessage, toolCall branch) -/

/-- One requested function invocation of an inbound tool call. The tool
arguments title and content are read from the dynamic args record. -/
structure FunctionCall where
  id : String
  name : String
  title : String
  content : String
  deriving DecidableEq, Repr

/-- The ephemeral UI insight value produced by a recognized tool call. The
random string identifier of the code is abstracted by a counter value. -/
structure InsightCard where
  id : Nat
  title : String
  content : String
  timestamp : ℚ
  deriving DecidableEq, Repr

/-- The tool-response acknowledgement sent back over the transport. -/
structure ToolResponse where
  id : String
  name : String
  result : String
  deriving DecidableEq, Repr

/-- Body of the per-call loop of the toolCall branch: a recognized name
yields an insight card (only when the teleprompter flag is off) and always
a tool response correlated by the call id; any other name yields nothing. -/
def processFunctionCall (isTeleprompterActive : Bool) (wallNow : ℚ) (fid : Nat)
    (fc : FunctionCall) : Option InsightCard × Option ToolResponse :=
  if fc.name = "createInsightCard" then
    ((if !isTeleprompterActive then some ⟨fid, fc.title, fc.content, wallNow⟩
      else none),
      some ⟨fc.id, fc.name, "ok"⟩)
  else (none, none)

/-- The whole toolCall branch as a pure producer: the insight cards shown
and the tool responses sent, over the list of function calls in order. -/
def processToolCall (isTeleprompterActive : Bool) (wallNow : ℚ) (fid : Nat) :
    List FunctionCall → List InsightCard × List ToolResponse
  | [] => ([], [])
  | fc :: rest =>
      let r := processFunctionCall isTeleprompterActive wallNow fid fc
      let rs := processToolCall isTeleprompterActive wallNow (fid + 1) rest
      (r.1.toList ++ rs.1, r.2.toList ++ rs.2)

/-! ### Resource teardown (cleanup, disconnect) and connect -/

/-- One release operation performed on an owned browser resource during
teardown. -/
inductive ReleaseAction where
  | clearInterval (id : Nat)
  | disconnectProcessor (id : Nat)
  | disconnectSource (id : Nat)
  | stopSource (id : Nat)
  | closeInputCtx (id : Nat)
  | closeOutputCtx (id : Nat)
  deriving DecidableEq, Repr

/-- The refs and react state owned by the hook, with browser handles
abstracted by numeric identifiers. -/
structure Resources where
  videoInterval : Option Nat
  processor : Option Nat
  source : Option Nat
  activeSources : List Nat
  inputCtx : Option Nat
  outputCtx : Option Nat
  gainNode : Option Nat
  session : Option Nat
  nextStartTime : ℚ
  isConnected : Bool
  isConnecting : Bool
  activeInsight : Option InsightCard
  error : Option String
  currentPrompt : String
  history : List TranscriptEntry
  deriving DecidableEq, Repr

/-- cleanup of the latest revision: clear the video interval, disconnect the
processor and the media source, stop every live buffer source and clear the
set, close both audio contexts, null the session ref, and reset the
connection flags and the active insight. Returns the new state and the list
of release operations performed. -/
def cleanup (s : Resources) : Resources × List ReleaseAction :=
  let a1 := match s.videoInterval with
    | some id => [ReleaseAction.clearInterval id]
    | none => []
  let a2 := match s.processor with
    | some id => [ReleaseAction.disconnectProcessor id]
    | none => []
  let a3 := match s.source with
    | some id => [ReleaseAction.disconnectSource id]
    | none => []
  let a4 := s.activeSources.map ReleaseAction.stopSource
  let a5 := match s.inputCtx with
    | some id => [ReleaseAction.closeInputCtx id]
    | none => []
  let a6 := match s.outputCtx with
    | some id => [ReleaseAction.closeOutputCtx id]
    | none => []
  ({ s with videoInterval := none, processor := none, source := none,
            activeSources := [], inputCtx := none, outputCtx := none,
            session := none, isConnected := false, isConnecting := false,
            activeInsight := none },
    a1 ++ a2 ++ a3 ++ a4 ++ a5 ++ a6)

/-- disconnect: cleanup, then set the visible prompt to the session-ended
message. -/
def disconnect (s : Resources) : Resources × List ReleaseAction :=
  let r := cleanup s
  ({ r.1 with currentPrompt := "Session ended." }, r.2)

/-- connect of the latest revision. A falsy credential, or a session already
connecting or connected, silently returns. Otherwise the connecting flag is
set, the error cleared, the history reset and the audio graph built; a null
media stream throws, which the catch surfaces as an error message followed
by cleanup; otherwise the transport open is initiated and the session ref
set. The boolean result records whether a transport open was attempted. -/
def connect (apiKey : Option String) (stream : Option Nat) (s : Resources) :
    Resources × Bool :=
  if !(truthy apiKey) || s.isConnecting || s.isConnected then (s, false)
  else
    let s1 := { s with isConnecting := true, error := none, history := [],
                       inputCtx := some 100, outputCtx := some 101,
                       gainNode := some 102, nextStartTime := 0 }
    match stream with
    | none => ((cleanup { s1 with error := some "Video stream not initialized" }).1, false)
    | some _ => ({ s1 with session := some 103 }, true)

/-- The initial state of the hook: every ref null, no error, not connected,
the initial visible prompt. -/
def initialResources : Resources :=
  { videoInterval := none, processor := none, source := none,
    activeSources := [], inputCtx := none, outputCtx := none,
    gainNode := none, session := none, nextStartTime := 0,
    isConnected := false, isConnecting := false, activeInsight := none,
    error := none, currentPrompt := "Ready to record...", history := [] }

/-! ### Video frame backpressure gate (onopen, video interval callback) -/

/-- State of the frame sampler: the isSendingFrame in-flight flag. -/
structure FrameState where
  isSendingFrame : Bool
  deriving DecidableEq, Repr

/-- Events of the frame sampler: an interval tick (ready bundles the
conditions that the video element and canvas context exist and the element
readyState is at least 2) and the settling of an issued send, successful
or failed. -/
inductive FrameEvent where
  | tick (ready : Bool)
  | settle (ok : Bool)
  deriving DecidableEq, Repr

/-- One step of the video interval callback: a tick captures and sends a
frame only when ready and no send is in flight, setting the flag; the
finally handler of a settling send clears the flag whether the send
succeeded or failed. The boolean result records whether a frame send was
issued by this event. -/
def frameStep (s : FrameState) : FrameEvent → FrameState × Bool
  | .tick ready =>
      if ready && !s.isSendingFrame then ({ isSendingFrame := true }, true)
      else (s, false)
  | .settle _ => ({ isSendingFrame := false }, false)

/-- Run a sequence of sampler events, counting the frame sends issued. -/
def runFrames (s : FrameState) : List FrameEvent → FrameState × Nat
  | [] => (s, 0)
  | e :: es =>
      let r := frameStep s e
      let rest := runFrames r.1 es
      (rest.1, (if r.2 then 1 else 0) + rest.2)

/-- Number of settle events in an event sequence. -/
def countSettles : List FrameEvent → Nat
  | [] => 0
  | .settle _ :: es => countSettles es + 1
  | .tick _ :: es => countSettles es

/-- An event sequence is admissible from a state when every settle event
occurs while a send is actually outstanding: a settle callback exists only
for a send that was issued. -/
def admissible (s : FrameState) : List FrameEvent → Bool
  | [] => true
  | .tick r :: es => admissible (frameStep s (.tick r)).1 es
  | .settle ok :: es => s.isSendingFrame && admissible (frameStep s (.settle ok)).1 es

/-- Numeric value of a boolean flag. -/
def b2n (b : Bool) : Nat := if b then 1 else 0

/-! ### Report requestor (generateSessionReport) -/

/-- The structured report record of the fixed response schema of the latest
revision. -/
structure SessionFeedback where
  score : ℚ
  summary : String
  videoDescription : Option String
  strengths : List String
  tips : List String
  deriving DecidableEq, Repr

/-- role.toUpperCase() on the two role strings. -/
def roleUpper : Role → String
  | .user => "USER"
  | .model => "MODEL"

/-- The transcript string joined from the history entries. -/
def formatTranscript (h : List TranscriptEntry) : String :=
  String.intercalate "\n" (h.map fun e => roleUpper e.role ++ ": " ++ e.text)

/-- The contents string of the analysis request of the latest revision. -/
def buildReportPrompt (topic : String) (script : Option String)
    (h : List TranscriptEntry) : String :=
  "Analyze this transcript. Topic: " ++ topic ++ ", Script: " ++
    (if truthy script then script.getD "" else "N/A") ++
    "\nTranscript:\n" ++ formatTranscript h

/-- generateSessionReport of the latest revision. An empty history returns
null before any network activity. Otherwise the request is issued; the
network call is abstracted as a function from the request contents to either
a thrown error or an optional response text, and JSON.parse against the
response schema as a function from the text to either a thrown error or a
feedback record; the catch absorbs every thrown error into a null result.
The numeric result counts the network calls made. -/
def generateSessionReport (topic : String) (script : Option String)
    (history : List TranscriptEntry)
    (network : String → Except String (Option String))
    (parse : String → Except String SessionFeedback) :
    Option SessionFeedback × Nat :=
  if history.length = 0 then (none, 0)
  else
    match network (buildReportPrompt topic script history) with
    | .error _ => (none, 1)
    | .ok txt =>
        if truthy txt then
          match parse (txt.getD "") with
          | .ok fb => (some fb, 1)
          | .error _ => (none, 1)
        else (none, 1)

/-! ### The whole onmessage handler of the latest revision -/

/-- UI and playback state touched by onmessage. Scheduled timer callbacks
are recorded as lists of delays; nextId supplies fresh identifiers for
insight cards and buffer sources. -/
structure LiveState where
  history : List TranscriptEntry
  currentPrompt : String
  activeInsight : Option InsightCard
  insightHideTimers : List ℚ
  promptClearTimers : List ℚ
  toolResponses : List ToolResponse
  player : PlayerState
  scheduled : List PlaybackUnit
  nextId : Nat
  deriving DecidableEq, Repr

/-- One inbound LiveServerMessage, flattened: a missing serverContent is
all fields absent. audioData abstracts a truthy
modelTurn.parts[0].inlineData.data by its decoded buffer duration. -/
structure Message where
  toolCall : Option (List FunctionCall)
  interrupted : Bool
  inputTranscription : Option (Option String)
  outputTranscription : Option (Option String)
  audioData : Option ℚ
  turnComplete : Bool
  deriving DecidableEq, Repr

/-- setCurrentPrompt updater of the outputTranscription branch of the
latest revision: replace the idle text, otherwise append and keep the last
300 characters. -/
def nextPromptText (prev t : String) : String :=
  if prev = "Listening..." then t
  else ⟨(prev ++ t).data.drop ((prev ++ t).data.length - 300)⟩

/-- One iteration of the per-call loop of the toolCall branch, applied to
the live state: a produced insight replaces the active one and schedules
its 8000 ms auto-hide; a produced response is appended to the sent
responses. -/
def applyFunctionCall (isTeleprompterActive : Bool) (wallNow : ℚ)
    (s : LiveState) (fc : FunctionCall) : LiveState :=
  let r := processFunctionCall isTeleprompterActive wallNow s.nextId fc
  let s1 := match r.1 with
    | some c => { s with activeInsight := some c,
                         insightHideTimers := s.insightHideTimers ++ [8000],
                         nextId := s.nextId + 1 }
    | none => s
  { s1 with toolResponses := s1.toolResponses ++ r.2.toList }

/-- onmessage of the latest revision, in source order: the toolCall branch,
the interrupted branch, the two transcription branches and the audio
payload branch. The handler contains no branch for the turnComplete field.
wallNow is Date.now() and audioNow the output ctx.currentTime; the audio
branch presumes an open session whose output context and gain node exist. -/
def handleMessage (isTeleprompterActive : Bool) (wallNow audioNow : ℚ)
    (s : LiveState) (m : Message) : LiveState :=
  let s1 := match m.toolCall with
    | some fcs => fcs.foldl (applyFunctionCall isTeleprompterActive wallNow) s
    | none => s
  let s2 := if m.interrupted then { s1 with player := handleInterrupted s1.player }
    else s1
  let s3 := match m.inputTranscription with
    | some txt => { s2 with history := handleInputTranscription s2.history txt }
    | none => s2
  let s4 := match m.outputTranscription with
    | some txt =>
        let s4a := if isTeleprompterActive then s3
          else { s3 with currentPrompt := nextPromptText s3.currentPrompt (txt.getD "") }
        { s4a with history := handleOutputTranscription s4a.history txt }
    | none => s3
  match m.audioData with
  | some dur =>
      let r := scheduleAudio s4.player.nextStartTime ⟨audioNow, dur⟩
      { s4 with
          player := { s4.player with
            nextStartTime := r.1,
            activeSources := s4.player.activeSources ++ [s4.nextId] },
          scheduled := s4.scheduled ++ [r.2],
          nextId := s4.nextId + 1 }
  | none => s4

/-- turnComplete branch of the earlier revision kept in the source file:
schedule a clear of the visible prompt after a 3000 ms delay. -/
def handleTurnCompleteEarlier (s : LiveState) (turnComplete : Bool) : LiveState :=
  if turnComplete then { s with promptClearTimers := s.promptClearTimers ++ [3000] }
  else s

/-- Firing of the scheduled clear: setCurrentPrompt to the empty string. -/
def firePromptClear (s : LiveState) : LiveState :=
  { s with currentPrompt := "" }

/-- A concrete live state mid-session, used to evaluate the handler. -/
def sampleLiveState : LiveState :=
  { history := [⟨.user, "hello"⟩],
    currentPrompt := "Hello there",
    activeInsight := none,
    insightHideTimers := [],
    promptClearTimers := [],
    toolResponses := [],
    player := ⟨[], [], 0⟩,
    scheduled := [],
    nextId := 0 }

/-! ### Helper lemmas -/

/-- Unfolding of runScheduler on a cons cell. -/
theorem runScheduler_cons (vc : ℚ) (p : AudioPayload) (ps : List AudioPayload) :
    runScheduler vc (p :: ps) =
      ((runScheduler (max vc p.now + p.duration) ps).1,
        ⟨max vc p.now, p.duration⟩ :: (runScheduler (max vc p.now + p.duration) ps).2) :=
  rfl

/-- Every unit scheduled from clock vc starts no earlier than vc, given
nonnegative payload durations. -/
theorem runScheduler_start_ge (vc : ℚ) (ps : List AudioPayload)
    (hd : ∀ p ∈ ps, 0 ≤ p.duration) :
    ∀ u ∈ (runScheduler vc ps).2, vc ≤ u.startTime := by
  induction ps generalizing vc with
  | nil => simp [runScheduler]
  | cons p ps ih =>
      intro u hu
      rw [runScheduler_cons] at hu
      rcases List.mem_cons.mp hu with h | h
      · subst h; exact le_max_left _ _
      · have h0 : 0 ≤ p.duration := hd p (List.mem_cons_self _ _)
        have hrec := ih (max vc p.now + p.duration)
          (fun q hq => hd q (List.mem_cons_of_mem _ hq)) u h
        calc vc ≤ max vc p.now := le_max_left _ _
          _ ≤ max vc p.now + p.duration := le_add_of_nonneg_right h0
          _ ≤ u.startTime := hrec

/-- The scheduled units are pairwise ordered: every earlier unit ends no
later than every later unit starts. -/
theorem runScheduler_chain (vc : ℚ) (ps : List AudioPayload)
    (hd : ∀ p ∈ ps, 0 ≤ p.duration) :
    ((runScheduler vc ps).2).Pairwise (fun u v => u.endTime ≤ v.startTime) := by
  induction ps generalizing vc with
  | nil => simp [runScheduler]
  | cons p ps ih =>
      rw [runScheduler_cons]
      refine List.Pairwise.cons ?_ (ih _ (fun q hq => hd q (List.mem_cons_of_mem _ hq)))
      intro v hv
      have hrec := runScheduler_start_ge (max vc p.now + p.duration) ps
        (fun q hq => hd q (List.mem_cons_of_mem _ hq)) v hv
      simpa [PlaybackUnit.endTime] using hrec

/-- Pointwise characterization of each scheduled unit: it starts at the
maximum of the virtual clock left by the previous payloads and the current
real time, and the clock advances to its end. -/
theorem runScheduler_getElem (vc : ℚ) (ps : List AudioPayload) :
    ∀ i u p, ((runScheduler vc ps).2)[i]? = some u → ps[i]? = some p →
      u.startTime = max (runScheduler vc (ps.take i)).1 p.now ∧
      u.duration = p.duration ∧
      (runScheduler vc (ps.take (i + 1))).1 = u.startTime + u.duration := by
  induction ps generalizing vc with
  | nil => intro i u p hu hp; simp at hp
  | cons q ps ih =>
      intro i u p hu hp
      rw [runScheduler_cons] at hu
      cases i with
      | zero =>
          simp only [List.getElem?_cons_zero, Option.some_inj] at hu hp
          subst hp; subst hu
          refine ⟨?_, rfl, ?_⟩ <;> simp [runScheduler, scheduleAudio]
      | succ n =>
          simp only [List.getElem?_cons_succ] at hu hp
          have := ih (max vc q.now + q.duration) n u p hu hp
          simpa [runScheduler_cons] using this

/-- Sends and settles balance along an admissible sampler event sequence:
the sends issued plus the initial in-flight flag equal the settles plus the
final in-flight flag. -/
theorem frames_balance :
    ∀ (es : List FrameEvent) (s : FrameState), admissible s es = true →
      (runFrames s es).2 + b2n s.isSendingFrame =
        countSettles es + b2n (runFrames s es).1.isSendingFrame := by
  intro es
  induction es with
  | nil => intro s _; simp [runFrames, countSettles]
  | cons e es ih =>
      intro s hadm
      cases e with
      | tick r =>
          obtain ⟨flag⟩ := s
          cases flag with
          | false =>
              cases r with
              | false =>
                  have hrec := ih ⟨false⟩ (by simpa [admissible, frameStep] using hadm)
                  simpa [runFrames, frameStep, countSettles] using hrec
              | true =>
                  have hrec := ih ⟨true⟩ (by simpa [admissible, frameStep] using hadm)
                  simp [runFrames, frameStep, countSettles, b2n] at hrec ⊢
                  omega
          | true =>
              have hrec := ih ⟨true⟩ (by simpa [admissible, frameStep] using hadm)
              simpa [runFrames, frameStep, countSettles] using hrec
      | settle ok =>
          obtain ⟨flag⟩ := s
          have hadm2 : (flag && admissible ⟨false⟩ es) = true := by
            simpa [admissible, frameStep] using hadm
          simp only [Bool.and_eq_true] at hadm2
          obtain ⟨hflag, hrest⟩ := hadm2
          subst hflag
          have hrec := ih ⟨false⟩ hrest
          simp [runFrames, frameStep, countSettles, b2n] at hrec ⊢
          omega

/-- Admissibility is closed under taking prefixes. -/
theorem admissible_take :
    ∀ (es : List FrameEvent) (s : FrameState) (n : Nat),
      admissible s es = true → admissible s (es.take n) = true := by
  intro es
  induction es with
  | nil => intro s n _; simp [admissible]
  | cons e es ih =>
      intro s n hadm
      cases n with
      | zero => simp [admissible]
      | succ k =>
          cases e with
          | tick r =>
              simp only [List.take_succ_cons, admissible]
              exact ih _ k (by simpa [admissible] using hadm)
          | settle ok =>
              have hadm2 := hadm
              simp only [admissible, Bool.and_eq_true] at hadm2
              simp only [List.take_succ_cons, admissible, hadm2.1, Bool.true_and]
              exact ih _ k hadm2.2

/-! ### Claim theorems -/

/-- Claim C1: for every sequence of inbound audio payloads handled without an
intervening interruption signal, each decoded unit is scheduled at the
maximum of the virtual clock and the current real time and the clock then
advances to that start plus the unit duration; consequently each unit starts
no earlier than the previous unit ends and no two units have overlapping
time ranges. -/
theorem scheduler_gapless_c1 (vc : ℚ) (ps : List AudioPayload)
    (hd : ∀ p ∈ ps, 0 ≤ p.duration) :
    (∀ i u p, ((runScheduler vc ps).2)[i]? = some u → ps[i]? = some p →
        u.startTime = max (runScheduler vc (ps.take i)).1 p.now ∧
        u.duration = p.duration ∧
        (runScheduler vc (ps.take (i + 1))).1 = u.startTime + u.duration)
  ∧ (∀ i u v, ((runScheduler vc ps).2)[i]? = some u →
        ((runScheduler vc ps).2)[i + 1]? = some v → u.endTime ≤ v.startTime)
  ∧ ((runScheduler vc ps).2).Pairwise (fun u v => ¬ overlaps u v) := by
  refine ⟨runScheduler_getElem vc ps, ?_, ?_⟩
  · intro i u v hu hv
    rcases List.getElem?_eq_some.mp hu with ⟨hi, hiu⟩
    rcases List.getElem?_eq_some.mp hv with ⟨hj, hjv⟩
    have hp := List.pairwise_iff_getElem.mp (runScheduler_chain vc ps hd)
    have := hp i (i + 1) hi hj (Nat.lt_succ_self i)
    rwa [hiu, hjv] at this
  · refine (runScheduler_chain vc ps hd).imp ?_
    intro a b hab hover
    rcases hover with ⟨t, ⟨_, hta⟩, ⟨hbt, _⟩⟩
    exact absurd (lt_of_lt_of_le hta (le_trans hab hbt)) (lt_irrefl t)

/-- Witness for C1 on a concrete payload sequence. -/
theorem scheduler_gapless_c1_witness :
    ((runScheduler 0 [⟨0, 2⟩, ⟨1, 3⟩]).2).Pairwise (fun u v => ¬ overlaps u v)
  ∧ (⟨0, 2⟩ : PlaybackUnit).endTime ≤ (⟨2, 3⟩ : PlaybackUnit).startTime :=
  ⟨(scheduler_gapless_c1 0 [⟨0, 2⟩, ⟨1, 3⟩] (by norm_num)).2.2,
    (scheduler_gapless_c1 0 [⟨0, 2⟩, ⟨1, 3⟩] (by norm_num)).2.1 0 ⟨0, 2⟩ ⟨2, 3⟩
      (by norm_num [runScheduler, scheduleAudio])
      (by norm_num [runScheduler, scheduleAudio])⟩

/-- Claim C2: handling an inbound interruption signal stops every unit in
the active playback set, leaves the set empty and resets the virtual clock
to zero, so the next unit is scheduled at real time. -/
theorem interrupt_clears_c2 (s : PlayerState) :
    (handleInterrupted s).activeSources = []
  ∧ (handleInterrupted s).nextStartTime = 0
  ∧ (∀ sid ∈ s.activeSources, sid ∈ (handleInterrupted s).stoppedLog)
  ∧ (∀ p : AudioPayload, 0 ≤ p.now →
        (scheduleAudio (handleInterrupted s).nextStartTime p).2.startTime = p.now) := by
  refine ⟨rfl, rfl, ?_, ?_⟩
  · intro sid hid
    simp only [handleInterrupted, List.mem_append]
    exact Or.inr hid
  · intro p hp
    simp [handleInterrupted, scheduleAudio, max_eq_right hp]

/-- Witness for C2 on a concrete player state. -/
theorem interrupt_clears_c2_witness :
    (handleInterrupted ⟨[1, 2], [], 5⟩).activeSources = []
  ∧ 1 ∈ (handleInterrupted ⟨[1, 2], [], 5⟩).stoppedLog
  ∧ (scheduleAudio (handleInterrupted ⟨[1, 2], [], 5⟩).nextStartTime ⟨3, 2⟩).2.startTime = 3 :=
  ⟨(interrupt_clears_c2 ⟨[1, 2], [], 5⟩).1,
    (interrupt_clears_c2 ⟨[1, 2], [], 5⟩).2.2.1 1 (by decide),
    (interrupt_clears_c2 ⟨[1, 2], [], 5⟩).2.2.2 ⟨3, 2⟩ (by decide)⟩

/-- Claim C3: consecutive non-empty deltas of one role are concatenated into
the last entry and a role switch starts a new entry; the role sequence user,
user, model, user yields exactly three entries whose first text is the
concatenation of the first two delta texts. -/
theorem transcript_merge_c3 :
    (∀ (h : List TranscriptEntry) (e : TranscriptEntry) (r : Role) (t : String),
        h.getLast? = some e → e.role = r → t ≠ "" →
        applyDelta h (r, some t) = h.dropLast ++ [⟨r, e.text ++ t⟩])
  ∧ (∀ (h : List TranscriptEntry) (e : TranscriptEntry) (r : Role) (t : String),
        h.getLast? = some e → e.role ≠ r → t ≠ "" →
        applyDelta h (r, some t) = h ++ [⟨r, t⟩])
  ∧ (∀ t1 t2 t3 t4 : String, t1 ≠ "" → t2 ≠ "" → t3 ≠ "" → t4 ≠ "" →
        runDeltas [] [(.user, some t1), (.user, some t2), (.model, some t3),
          (.user, some t4)] =
          [⟨.user, t1 ++ t2⟩, ⟨.model, t3⟩, ⟨.user, t4⟩]) := by
  refine ⟨?_, ?_, ?_⟩
  · intro h e r t hl hr ht
    cases r with
    | user =>
        simp [applyDelta, handleInputTranscription, truthy, ht, appendRoleText, hl, hr]
    | model =>
        simp [applyDelta, handleOutputTranscription, appendRoleText, hl, hr]
  · intro h e r t hl hr ht
    cases r with
    | user =>
        simp [applyDelta, handleInputTranscription, truthy, ht, appendRoleText, hl, hr]
    | model =>
        simp [applyDelta, handleOutputTranscription, appendRoleText, hl, hr]
  · intro t1 t2 t3 t4 h1 h2 h3 h4
    simp [runDeltas, applyDelta, handleInputTranscription, handleOutputTranscription,
      truthy, appendRoleText, h1, h2, h3, h4]

/-- Witness for C3 on concrete delta texts. -/
theorem transcript_merge_c3_witness :
    runDeltas [] [(.user, some "ab"), (.user, some "cd"), (.model, some "ef"),
      (.user, some "gh")] = [⟨.user, "abcd"⟩, ⟨.model, "ef"⟩, ⟨.user, "gh"⟩] := by
  simpa using transcript_merge_c3.2.2 "ab" "cd" "ef" "gh"
    (by decide) (by decide) (by decide) (by decide)

/-- Claim C10: the two transcription branches treat empty text
asymmetrically: an empty or missing input delta never modifies the
transcript, while an empty or missing output delta is coerced to the empty
string and still appended, so a user delta a followed by an empty model
delta ends the transcript with a model entry whose text is empty. -/
theorem transcript_empty_asymmetry_c10 :
    handleInputTranscription [⟨.user, "a"⟩] (some "") = [⟨.user, "a"⟩]
  ∧ handleInputTranscription [⟨.user, "a"⟩] none = [⟨.user, "a"⟩]
  ∧ handleOutputTranscription [⟨.user, "a"⟩] (some "") = [⟨.user, "a"⟩, ⟨.model, ""⟩]
  ∧ handleOutputTranscription [⟨.user, "a"⟩] none = [⟨.user, "a"⟩, ⟨.model, ""⟩]
  ∧ runDeltas [] [(.user, some "a"), (.model, some "")] =
      [⟨.user, "a"⟩, ⟨.model, ""⟩] := by
  decide

/-- Claim C4 counterexample: in the latest revision, a message carrying only
the turn-complete signal leaves the state entirely unchanged: the visible
utterance text is not cleared and no delayed clear is scheduled. -/
theorem turnComplete_c4_counterexample :
    handleMessage false 0 0 sampleLiveState ⟨none, false, none, none, none, true⟩ =
      sampleLiveState
  ∧ (handleMessage false 0 0 sampleLiveState
      ⟨none, false, none, none, none, true⟩).currentPrompt = "Hello there"
  ∧ (handleMessage false 0 0 sampleLiveState
      ⟨none, false, none, none, none, true⟩).promptClearTimers = [] :=
  ⟨rfl, rfl, rfl⟩

/-- Claim C4 amended: the earlier revision schedules clearing of the visible
utterance text after a fixed 3000 ms delay and never touches the transcript,
and the fired clear empties the visible text only; the latest revision
ignores the turn-complete signal entirely, so handling it leaves the visible
text, the scheduled clears and the transcript unchanged. -/
theorem turnComplete_c4_amended :
    (∀ s : LiveState, handleTurnCompleteEarlier s true =
        { s with promptClearTimers := s.promptClearTimers ++ [3000] })
  ∧ (∀ s : LiveState, (handleTurnCompleteEarlier s true).history = s.history ∧
        (handleTurnCompleteEarlier s true).currentPrompt = s.currentPrompt)
  ∧ (∀ s : LiveState, (firePromptClear s).currentPrompt = "" ∧
        (firePromptClear s).history = s.history)
  ∧ (∀ (tele : Bool) (wallNow audioNow : ℚ) (s : LiveState) (m : Message) (b : Bool),
        handleMessage tele wallNow audioNow s m =
          handleMessage tele wallNow audioNow s { m with turnComplete := b })
  ∧ (∀ (tele : Bool) (wallNow audioNow : ℚ) (s : LiveState),
        handleMessage tele wallNow audioNow s ⟨none, false, none, none, none, true⟩ = s) :=
  ⟨fun _ => rfl, fun _ => ⟨rfl, rfl⟩, fun _ => ⟨rfl, rfl⟩,
    fun _ _ _ _ _ _ => rfl, fun _ _ _ _ => rfl⟩

/-- Claim C5: a recognized function call produces an insight card exactly
when the teleprompter flag is off and always a tool response correlated by
the call id; an unrecognized name produces neither, raises no error and
does not stop processing of the remaining calls. -/
theorem toolCall_c5 :
    (∀ (tele : Bool) (wallNow : ℚ) (fid : Nat) (fc : FunctionCall),
        fc.name = "createInsightCard" →
        processFunctionCall tele wallNow fid fc =
          ((if tele then none else some ⟨fid, fc.title, fc.content, wallNow⟩),
            some ⟨fc.id, fc.name, "ok"⟩))
  ∧ (∀ (tele : Bool) (wallNow : ℚ) (fid : Nat) (fc : FunctionCall),
        fc.name ≠ "createInsightCard" →
        processFunctionCall tele wallNow fid fc = (none, none))
  ∧ (∀ (tele : Bool) (wallNow : ℚ) (fid : Nat) (fc : FunctionCall)
        (rest : List FunctionCall),
        fc.name ≠ "createInsightCard" →
        processToolCall tele wallNow fid (fc :: rest) =
          processToolCall tele wallNow (fid + 1) rest)
  ∧ (∀ (tele : Bool) (wallNow : ℚ) (fid : Nat) (fcs : List FunctionCall)
        (rid : String),
        (∃ r ∈ (processToolCall tele wallNow fid fcs).2, r.id = rid) ↔
          ∃ fc ∈ fcs, fc.name = "createInsightCard" ∧ fc.id = rid)
  ∧ (∀ (tele : Bool) (wallNow : ℚ) (fid : Nat) (fcs : List FunctionCall),
        ∀ c ∈ (processToolCall tele wallNow fid fcs).1,
          ∃ fc ∈ fcs, fc.name = "createInsightCard" ∧
            c.title = fc.title ∧ c.content = fc.content) := by
  refine ⟨?_, ?_, ?_, ?_, ?_⟩
  · intro tele wallNow fid fc h
    cases tele <;> simp [processFunctionCall, h]
  · intro tele wallNow fid fc h
    simp [processFunctionCall, h]
  · intro tele wallNow fid fc rest h
    simp [processToolCall, processFunctionCall, h]
  · intro tele wallNow fid fcs rid
    induction fcs generalizing fid with
    | nil => simp [processToolCall]
    | cons fc rest ih =>
        by_cases h : fc.name = "createInsightCard"
        · cases tele <;>
            simp [processToolCall, processFunctionCall, h, ih]
        · simp [processToolCall, processFunctionCall, h, ih]
  · intro tele wallNow fid fcs
    induction fcs generalizing fid with
    | nil => simp [processToolCall]
    | cons fc rest ih =>
        intro c hc
        by_cases h : fc.name = "createInsightCard"
        · cases tele with
          | false =>
              simp only [processToolCall, processFunctionCall, h, if_pos] at hc
              simp at hc
              rcases hc with hc | hc
              · exact ⟨fc, by simp, h, by simp [hc]⟩
              · rcases ih (fid + 1) c hc with ⟨fc2, hmem, hname, ht, hco⟩
                exact ⟨fc2, by simp [hmem], hname, ht, hco⟩
          | true =>
              simp only [processToolCall, processFunctionCall, h, if_pos] at hc
              simp at hc
              rcases ih (fid + 1) c hc with ⟨fc2, hmem, hname, ht, hco⟩
              exact ⟨fc2, by simp [hmem], hname, ht, hco⟩
        · simp only [processToolCall, processFunctionCall, h, if_neg] at hc
          simp at hc
          rcases ih (fid + 1) c hc with ⟨fc2, hmem, hname, ht, hco⟩
          exact ⟨fc2, by simp [hmem], hname, ht, hco⟩

/-- Witness for C5 on concrete calls: a recognized call with the flag off,
an unrecognized call, and continuation past the unrecognized call. -/
theorem toolCall_c5_witness :
    processFunctionCall false 0 7 ⟨"id2", "createInsightCard", "T", "C"⟩ =
      (some ⟨7, "T", "C", 0⟩, some ⟨"id2", "createInsightCard", "ok"⟩)
  ∧ processFunctionCall false 0 7 ⟨"id1", "bogus", "t", "c"⟩ = (none, none)
  ∧ processToolCall false 0 7 [⟨"id1", "bogus", "t", "c"⟩,
      ⟨"id2", "createInsightCard", "T", "C"⟩] =
      processToolCall false 0 8 [⟨"id2", "createInsightCard", "T", "C"⟩] :=
  ⟨by simpa using toolCall_c5.1 false 0 7 ⟨"id2", "createInsightCard", "T", "C"⟩ rfl,
    toolCall_c5.2.1 false 0 7 ⟨"id1", "bogus", "t", "c"⟩ (by decide),
    toolCall_c5.2.2.1 false 0 7 ⟨"id1", "bogus", "t", "c"⟩
      [⟨"id2", "createInsightCard", "T", "C"⟩] (by decide)⟩

/-- Claim C6: teardown is idempotent: a second disconnect leaves the state
of the first unchanged and performs no further release operation, and being
a total function it cannot throw. -/
theorem disconnect_idempotent_c6 : ∀ s : Resources,
    (disconnect (disconnect s).1).1 = (disconnect s).1 ∧
    (disconnect (disconnect s).1).2 = [] :=
  fun _ => ⟨rfl, rfl⟩

/-- Claim C7 counterexample: in the latest revision a connect with a missing
credential but a live media source returns silently: no error is surfaced
(contrary to a surfaced ConfigurationError) and no transport open is
attempted. -/
theorem connect_c7_counterexample :
    (connect none (some 5) initialResources).1.error = none
  ∧ connect none (some 5) initialResources = (initialResources, false) :=
  ⟨rfl, rfl⟩

/-- Claim C7 amended: a falsy credential makes connect a silent no-op with
no transport attempt and no surfaced error; a present credential with a null
media source surfaces the error message, never attempts the transport and
ends neither connecting nor connected; a connect while already connecting
or connected is a no-op. -/
theorem connect_c7_amended :
    (∀ (key : Option String) (stream : Option Nat) (s : Resources),
        truthy key = false → connect key stream s = (s, false))
  ∧ (∀ (key : Option String) (s : Resources),
        truthy key = true → s.isConnecting = false → s.isConnected = false →
        (connect key none s).2 = false ∧
        (connect key none s).1.error = some "Video stream not initialized" ∧
        (connect key none s).1.isConnecting = false ∧
        (connect key none s).1.isConnected = false)
  ∧ (∀ (key : Option String) (stream : Option Nat) (s : Resources),
        s.isConnecting = true ∨ s.isConnected = true →
        connect key stream s = (s, false)) := by
  refine ⟨?_, ?_, ?_⟩
  · intro key stream s h
    simp [connect, h]
  · intro key s hk h1 h2
    simp [connect, cleanup, hk, h1, h2]
  · intro key stream s h
    rcases h with h | h <;> simp [connect, h]

/-- Witness for C7 amended on concrete inputs. -/
theorem connect_c7_amended_witness :
    connect (some "") (some 5) initialResources = (initialResources, false)
  ∧ (connect (some "k") none initialResources).1.error =
      some "Video stream not initialized"
  ∧ connect (some "k") (some 5)
      { initialResources with isConnected := true } =
      ({ initialResources with isConnected := true }, false) :=
  ⟨connect_c7_amended.1 (some "") (some 5) initialResources (by decide),
    (connect_c7_amended.2.1 (some "k") initialResources (by decide) rfl rfl).2.1,
    connect_c7_amended.2.2 (some "k") (some 5)
      { initialResources with isConnected := true } (Or.inr rfl)⟩

/-- Claim C8: at most one frame is in flight at any time: a tick while a
send is unsettled is skipped entirely, otherwise the flag is set and the
frame sent, the flag is cleared only by the settling of the send whether it
succeeds or fails, and along any admissible event sequence the sends issued
never exceed the settles plus one. -/
theorem frameGate_c8 :
    (∀ (s : FrameState) (r : Bool), s.isSendingFrame = true →
        frameStep s (.tick r) = (s, false))
  ∧ (∀ s : FrameState, s.isSendingFrame = false →
        frameStep s (.tick true) = (⟨true⟩, true))
  ∧ (∀ (s : FrameState) (ok : Bool),
        (frameStep s (.settle ok)).1.isSendingFrame = false)
  ∧ (∀ (es : List FrameEvent) (n : Nat),
        admissible ⟨false⟩ es = true →
        (runFrames ⟨false⟩ (es.take n)).2 ≤ countSettles (es.take n) + 1) := by
  refine ⟨?_, ?_, ?_, ?_⟩
  · intro s r h; simp [frameStep, h]
  · intro s h; obtain ⟨flag⟩ := s; subst h; simp [frameStep]
  · intro s ok; simp [frameStep]
  · intro es n hadm
    have hb := frames_balance (es.take n) ⟨false⟩ (admissible_take es ⟨false⟩ n hadm)
    have hle : b2n (runFrames ⟨false⟩ (es.take n)).1.isSendingFrame ≤ 1 := by
      cases hfin : (runFrames ⟨false⟩ (es.take n)).1.isSendingFrame <;> simp [b2n]
    simp only [b2n] at hb hle
    simp at hb
    omega

/-- Witness for C8 on concrete sampler states and a concrete admissible
event sequence. -/
theorem frameGate_c8_witness :
    frameStep ⟨true⟩ (.tick true) = (⟨true⟩, false)
  ∧ frameStep ⟨false⟩ (.tick true) = (⟨true⟩, true)
  ∧ (frameStep ⟨true⟩ (.settle false)).1.isSendingFrame = false
  ∧ (runFrames ⟨false⟩ (([FrameEvent.tick true, .tick true, .settle false,
        .tick true]).take 4)).2 ≤
      countSettles (([FrameEvent.tick true, .tick true, .settle false,
        .tick true]).take 4) + 1 :=
  ⟨frameGate_c8.1 ⟨true⟩ true rfl,
    frameGate_c8.2.1 ⟨false⟩ rfl,
    frameGate_c8.2.2.1 ⟨true⟩ false,
    frameGate_c8.2.2.2 _ 4 (by decide)⟩

/-- Claim C9: a report request on an empty transcript returns no report
without any network call, and a response that fails to parse against the
schema yields no report rather than a propagated error. -/
theorem report_c9 :
    (∀ topic script network parse,
        generateSessionReport topic script [] network parse = (none, 0))
  ∧ (∀ topic script h network parse t e,
        network (buildReportPrompt topic script h) = .ok (some t) →
        parse t = .error e → h ≠ [] →
        generateSessionReport topic script h network parse = (none, 1))
  ∧ (∀ topic script h network parse e,
        network (buildReportPrompt topic script h) = .error e → h ≠ [] →
        generateSessionReport topic script h network parse = (none, 1)) := by
  refine ⟨?_, ?_, ?_⟩
  · intro topic script network parse
    simp [generateSessionReport]
  · intro topic script h network parse t e hnet hparse hne
    have hlen : ¬ h.length = 0 := by simpa [List.length_eq_zero] using hne
    by_cases ht : t = ""
    · subst ht
      simp [generateSessionReport, hlen, hnet, truthy]
    · simp [generateSessionReport, hlen, hnet, truthy, ht, hparse]
  · intro topic script h network parse e hnet hne
    have hlen : ¬ h.length = 0 := by simpa [List.length_eq_zero] using hne
    simp [generateSessionReport, hlen, hnet]

/-- Witness for C9 on a concrete transcript, network and parse outcome. -/
theorem report_c9_witness :
    generateSessionReport "t" none [⟨.user, "hi"⟩]
      (fun _ => Except.ok (some "bad")) (fun _ => Except.error "bad json") =
      (none, 1)
  ∧ generateSessionReport "t" none []
      (fun _ => Except.ok (some "bad")) (fun _ => Except.error "bad json") =
      (none, 0) :=
  ⟨report_c9.2.1 "t" none [⟨.user, "hi"⟩] _ _ "bad" "bad json" rfl rfl
      (by decide),
    report_c9.1 "t" none _ _⟩

end Flow
